import Mathlib

/-!
Verification of the Automatic Cloud Backup Tool (Go) against its
natural-language specification. The Go source is shallowly embedded:
bytes are natural numbers below 256, the standard-library base64
codec (encoding/base64, StdEncoding) is modelled concretely, the
AES-GCM authenticated-encryption primitive from crypto/cipher is an
abstract parameter carrying the laws the Go standard library
documents for every AEAD, and effectful code (file system, status
persistence, channels) is modelled by explicit state passing.
-/

/-! ## Base64 (encoding/base64 StdEncoding, used by encryption.go) -/

/-- The standard base64 alphabet as ASCII codes: A-Z, a-z, 0-9, plus, slash. -/
def b64Chars : List Nat :=
  [65, 66, 67, 68, 69, 70, 71, 72, 73, 74, 75, 76, 77, 78, 79, 80,
   81, 82, 83, 84, 85, 86, 87, 88, 89, 90,
   97, 98, 99, 100, 101, 102, 103, 104, 105, 106, 107, 108, 109, 110,
   111, 112, 113, 114, 115, 116, 117, 118, 119, 120, 121, 122,
   48, 49, 50, 51, 52, 53, 54, 55, 56, 57, 43, 47]

/-- Index into the base64 alphabet. -/
def encodeChar (i : Nat) : Nat := b64Chars.getD i 0

/-- Reverse lookup in the base64 alphabet; none for a byte outside it. -/
def decodeChar (c : Nat) : Option Nat := b64Chars.findIdx? (fun x => x == c)

/-- ASCII code of the padding character of StdEncoding. -/
def padChar : Nat := 61

/-- base64.StdEncoding.Encode on a byte sequence: groups of three bytes
become four alphabet characters, a trailing group of one or two bytes is
padded with the padding character. -/
def encodeB64 : List Nat → List Nat
  | [] => []
  | [a] => [encodeChar (a / 4), encodeChar (a % 4 * 16), padChar, padChar]
  | [a, b] => [encodeChar (a / 4), encodeChar (a % 4 * 16 + b / 16),
               encodeChar (b % 16 * 4), padChar]
  | a :: b :: c :: rest =>
      encodeChar (a / 4) :: encodeChar (a % 4 * 16 + b / 16) ::
      encodeChar (b % 16 * 4 + c / 64) :: encodeChar (c % 64) :: encodeB64 rest

/-- base64.StdEncoding.Decode: fails (none) on input whose length is not a
multiple of four, on a character outside the alphabet, or on misplaced
padding; otherwise recovers the byte sequence. -/
def decodeB64 : List Nat → Option (List Nat)
  | [] => some []
  | c1 :: c2 :: c3 :: c4 :: rest => do
      let i1 ← decodeChar c1
      let i2 ← decodeChar c2
      if c3 = padChar then
        if c4 = padChar ∧ rest = [] then some [i1 * 4 + i2 / 16] else none
      else do
        let i3 ← decodeChar c3
        if c4 = padChar then
          if rest = [] then some [i1 * 4 + i2 / 16, i2 % 16 * 16 + i3 / 4]
          else none
        else do
          let i4 ← decodeChar c4
          let tail ← decodeB64 rest
          some ((i1 * 4 + i2 / 16) :: (i2 % 16 * 16 + i3 / 4) ::
                (i3 % 4 * 64 + i4) :: tail)
  | _ => none

theorem decodeChar_encodeChar_fin :
    ∀ i : Fin 64, decodeChar (encodeChar i.val) = some i.val := by decide

theorem encodeChar_ne_pad_fin : ∀ i : Fin 64, encodeChar i.val ≠ padChar := by
  decide

theorem decodeChar_encodeChar {i : Nat} (h : i < 64) :
    decodeChar (encodeChar i) = some i :=
  decodeChar_encodeChar_fin ⟨i, h⟩

theorem encodeChar_ne_pad {i : Nat} (h : i < 64) : encodeChar i ≠ padChar :=
  encodeChar_ne_pad_fin ⟨i, h⟩

theorem decodeB64_encodeB64 :
    ∀ bs : List Nat, (∀ b ∈ bs, b < 256) → decodeB64 (encodeB64 bs) = some bs := by
  intro bs
  induction bs using encodeB64.induct with
  | case1 =>
      intro _
      simp [encodeB64, decodeB64]
  | case2 a =>
      intro h
      have ha : a < 256 := h a (by simp)
      have d1 := decodeChar_encodeChar (show a / 4 < 64 by omega)
      have d2 := decodeChar_encodeChar (show a % 4 * 16 < 64 by omega)
      simp [encodeB64, decodeB64, d1, d2]
      omega
  | case3 a b =>
      intro h
      have ha : a < 256 := h a (by simp)
      have hb : b < 256 := h b (by simp)
      have d1 := decodeChar_encodeChar (show a / 4 < 64 by omega)
      have d2 := decodeChar_encodeChar (show a % 4 * 16 + b / 16 < 64 by omega)
      have d3 := decodeChar_encodeChar (show b % 16 * 4 < 64 by omega)
      have n3 := encodeChar_ne_pad (show b % 16 * 4 < 64 by omega)
      simp [encodeB64, decodeB64, d1, d2, d3, n3]
      omega
  | case4 a b c rest ih =>
      intro h
      have ha : a < 256 := h a (by simp)
      have hb : b < 256 := h b (by simp)
      have hc : c < 256 := h c (by simp)
      have hrest : ∀ x ∈ rest, x < 256 := by
        intro x hx; exact h x (by simp [hx])
      have d1 := decodeChar_encodeChar (show a / 4 < 64 by omega)
      have d2 := decodeChar_encodeChar (show a % 4 * 16 + b / 16 < 64 by omega)
      have d3 := decodeChar_encodeChar (show b % 16 * 4 + c / 64 < 64 by omega)
      have d4 := decodeChar_encodeChar (show c % 64 < 64 by omega)
      have n3 := encodeChar_ne_pad (show b % 16 * 4 + c / 64 < 64 by omega)
      have n4 := encodeChar_ne_pad (show c % 64 < 64 by omega)
      simp [encodeB64, decodeB64, d1, d2, d3, d4, n3, n4, ih hrest]
      omega

theorem encodeB64_length :
    ∀ bs : List Nat, (encodeB64 bs).length = 4 * ((bs.length + 2) / 3) := by
  intro bs
  induction bs using encodeB64.induct with
  | case1 => simp [encodeB64]
  | case2 a => simp [encodeB64]
  | case3 a b => simp [encodeB64]
  | case4 a b c rest ih =>
      simp only [encodeB64, List.length_cons, ih]
      omega

/-! ## Encryption Manager (internal/security/encryption/encryption.go)

The AES-GCM primitive comes from the Go standard library
(crypto/aes + crypto/cipher), which is outside this repository. It is
modelled as an abstract authenticated-encryption scheme carrying the
laws the cipher.AEAD contract documents: Seal appends exactly the
16-byte overhead, produces bytes, and Open inverts Seal under the same
key and nonce. The standard GCM nonce size is 12 bytes. -/

/-- Abstract AEAD scheme standing for the cipher.AEAD value built by
cipher.NewGCM(aes.NewCipher(key)). -/
structure AEAD where
  sealBytes : List Nat → List Nat → List Nat → List Nat
  openBytes : List Nat → List Nat → List Nat → Option (List Nat)
  seal_length : ∀ key nonce pt, (sealBytes key nonce pt).length = pt.length + 16
  seal_bytes_lt : ∀ key nonce pt, (∀ b ∈ pt, b < 256) →
    ∀ b ∈ sealBytes key nonce pt, b < 256
  open_seal : ∀ key nonce pt, openBytes key nonce (sealBytes key nonce pt) = some pt

/-- GCM nonce size in bytes (gcm.NonceSize() for standard GCM). -/
def gcmNonceSize : Nat := 12

/-- EncryptionManager.Encrypt: seal the data with a fresh random nonce
(the nonce is a parameter here, chosen by crypto/rand in Go), prepend the
nonce (gcm.Seal with the nonce as destination), and base64-armor the
result. The key is the sha256 hash of the master password, always 32
bytes, so aes.NewCipher and cipher.NewGCM never fail on this path. -/
def encrypt (G : AEAD) (key nonce data : List Nat) : List Nat :=
  encodeB64 (nonce ++ G.sealBytes key nonce data)

/-- EncryptionManager.Decrypt: base64-decode, check the decoded length
against the nonce size, split off the nonce and authenticate-decrypt. -/
def decrypt (G : AEAD) (key : List Nat) (encodedData : List Nat) :
    Except String (List Nat) :=
  match decodeB64 encodedData with
  | none => Except.error "failed to decode base64"
  | some decoded =>
      if decoded.length < gcmNonceSize then Except.error "ciphertext too short"
      else
        match G.openBytes key (decoded.take gcmNonceSize)
            (decoded.drop gcmNonceSize) with
        | none => Except.error "failed to decrypt"
        | some plaintext => Except.ok plaintext

/-- Helper: the byte sequence fed to the base64 encoder inside encrypt
consists of bytes below 256 whenever the nonce and the plaintext do. -/
theorem encrypt_pre_bytes_lt (G : AEAD) (key nonce data : List Nat)
    (hn : ∀ b ∈ nonce, b < 256) (hd : ∀ b ∈ data, b < 256) :
    ∀ b ∈ nonce ++ G.sealBytes key nonce data, b < 256 := by
  intro b hb
  rcases List.mem_append.mp hb with h | h
  · exact hn b h
  · exact G.seal_bytes_lt key nonce data hd b h

/-- Claim C1: for every byte string (including the empty one) and every
key derived from a master password, decrypt inverts encrypt; the encrypt
output differs from the input; and two encrypt calls that drew distinct
random nonces produce distinct outputs. The random nonce is a parameter
constrained to the 12 bytes crypto/rand fills in the Go code. -/
theorem encrypt_decrypt_roundtrip (G : AEAD) (key nonce nonce' data : List Nat)
    (hlen : nonce.length = gcmNonceSize) (hn : ∀ b ∈ nonce, b < 256)
    (hlen' : nonce'.length = gcmNonceSize) (hn' : ∀ b ∈ nonce', b < 256)
    (hd : ∀ b ∈ data, b < 256) (hne : nonce ≠ nonce') :
    decrypt G key (encrypt G key nonce data) = Except.ok data ∧
    encrypt G key nonce data ≠ data ∧
    encrypt G key nonce data ≠ encrypt G key nonce' data := by
  have hdec : ∀ (n : List Nat), n.length = gcmNonceSize → (∀ b ∈ n, b < 256) →
      decodeB64 (encrypt G key n data) = some (n ++ G.sealBytes key n data) :=
    fun n hl hb => decodeB64_encodeB64 _ (encrypt_pre_bytes_lt G key n data hb hd)
  refine ⟨?_, ?_, ?_⟩
  · unfold decrypt
    rw [hdec nonce hlen hn]
    dsimp only
    have hlarge : ¬ (nonce ++ G.sealBytes key nonce data).length < gcmNonceSize := by
      simp [List.length_append, hlen]
    rw [if_neg hlarge]
    have htake : (nonce ++ G.sealBytes key nonce data).take gcmNonceSize = nonce := by
      rw [← hlen, List.take_left]
    have hdrop : (nonce ++ G.sealBytes key nonce data).drop gcmNonceSize =
        G.sealBytes key nonce data := by
      rw [← hlen, List.drop_left]
    rw [htake, hdrop, G.open_seal]
  · intro heq
    have h1 : (encrypt G key nonce data).length = data.length := by rw [heq]
    have h2 : (encrypt G key nonce data).length =
        4 * ((data.length + 30) / 3) := by
      unfold encrypt
      rw [encodeB64_length, List.length_append, hlen, G.seal_length]
      norm_num [gcmNonceSize]
      omega
    omega
  · intro heq
    have e1 := hdec nonce hlen hn
    have e2 := hdec nonce' hlen' hn'
    rw [heq, e2] at e1
    have hcat : nonce' ++ G.sealBytes key nonce' data =
        nonce ++ G.sealBytes key nonce data := by
      exact Option.some.inj e1
    have : nonce' = nonce := by
      have := congrArg (List.take gcmNonceSize) hcat
      rwa [← hlen', List.take_left, hlen', ← hlen, List.take_left] at this
    exact hne this.symm

/-- A concrete AEAD used only to witness the abstract theorems: sealing
appends sixteen zero bytes, opening strips them. -/
def trivialAEAD : AEAD where
  sealBytes := fun _ _ pt => pt ++ List.replicate 16 0
  openBytes := fun _ _ ct =>
    if 16 ≤ ct.length then some (ct.take (ct.length - 16)) else none
  seal_length := by intro key nonce pt; simp
  seal_bytes_lt := by
    intro key nonce pt h b hb
    rcases List.mem_append.mp hb with h1 | h1
    · exact h b h1
    · have := List.eq_of_mem_replicate h1
      omega
  open_seal := by
    intro key nonce pt
    have hlen : (pt ++ List.replicate 16 0).length = pt.length + 16 := by simp
    dsimp only
    rw [if_pos (by omega), hlen]
    congr 1
    exact List.take_left' rfl

theorem encrypt_decrypt_roundtrip_witness :
    decrypt trivialAEAD [] (encrypt trivialAEAD [] [0, 1, 2, 3, 4, 5, 6, 7, 8, 9, 10, 11] [200, 201]) =
      Except.ok [200, 201] ∧
    encrypt trivialAEAD [] [0, 1, 2, 3, 4, 5, 6, 7, 8, 9, 10, 11] [200, 201] ≠ [200, 201] ∧
    encrypt trivialAEAD [] [0, 1, 2, 3, 4, 5, 6, 7, 8, 9, 10, 11] [200, 201] ≠
      encrypt trivialAEAD [] [1, 1, 2, 3, 4, 5, 6, 7, 8, 9, 10, 11] [200, 201] :=
  encrypt_decrypt_roundtrip trivialAEAD [] [0, 1, 2, 3, 4, 5, 6, 7, 8, 9, 10, 11]
    [1, 1, 2, 3, 4, 5, 6, 7, 8, 9, 10, 11] [200, 201]
    (by decide) (by decide) (by decide) (by decide) (by decide) (by decide)

/-- Claim C9: decrypt is total and returns an error value (never a fault)
in each failure case: input that is not valid base64, decoded input
shorter than the GCM nonce size, and failed authentication. -/
theorem decrypt_total_errors (G : AEAD) (key input : List Nat)
    (h : decodeB64 input = none ∨
      (∃ d, decodeB64 input = some d ∧
        (d.length < gcmNonceSize ∨
          (gcmNonceSize ≤ d.length ∧
            G.openBytes key (d.take gcmNonceSize) (d.drop gcmNonceSize) = none)))) :
    ∃ e, decrypt G key input = Except.error e := by
  unfold decrypt
  rcases h with h | ⟨d, hd, hcase⟩
  · rw [h]
    exact ⟨_, rfl⟩
  · rw [hd]
    dsimp only
    rcases hcase with hshort | ⟨hge, hopen⟩
    · rw [if_pos hshort]
      exact ⟨_, rfl⟩
    · rw [if_neg (by omega), hopen]
      exact ⟨_, rfl⟩

theorem decrypt_total_errors_witness :
    ∃ e, decrypt trivialAEAD [] [33] = Except.error e :=
  decrypt_total_errors trivialAEAD [] [33] (Or.inl (by decide))

/-! ## Retry Controller (internal/utils/retry/retry.go)

A Go error is either a plain error value or a RetryableError wrapper
carrying an explicit retryable flag; RetryableError.Error() returns the
wrapped error text unchanged. RetryWithBackoff is modelled over the
outcome of each invocation (op k is the result of invocation k,
0-indexed, none meaning success) together with the state of the
cancellation context at the top-of-loop check and at the backoff wait
of each iteration. The delay computation involves floating-point
arithmetic and random jitter and only determines how long the sleeps
last, not the control flow, so it is not part of the model. -/

inductive GoErr where
  | plain (msg : String)
  | wrapped (msg : String) (canRetry : Bool)
  deriving DecidableEq

/-- error.Error(): the RetryableError wrapper passes the wrapped text
through unchanged. -/
def GoErr.text : GoErr → String
  | .plain m => m
  | .wrapped m _ => m

/-- The type assertion err.(*RetryableError) followed by !IsRetryable():
only a RetryableError marked non-retryable stops the loop; every other
error is treated as retryable. -/
def GoErr.isNonRetryable : GoErr → Bool
  | .wrapped _ canRetry => !canRetry
  | .plain _ => false

/-- Result of RetryWithBackoff together with the number of times the
operation was invoked. -/
structure RetryOutcome where
  result : Option GoErr
  calls : Nat
  deriving DecidableEq

/-- Text of the aggregate error built after the final failed attempt. -/
def aggregateMsg (maxRetries : Nat) (lastErr : Option GoErr) : String :=
  "operation failed after " ++ toString maxRetries ++ " attempts: " ++
    (match lastErr with
     | some e => e.text
     | none => "<nil>")

/-- One unrolling of the for-loop of RetryWithBackoff. remaining is the
number of loop iterations still permitted (maxRetries - attempt);
cancelPre k tells whether the context was already done at the check
opening iteration k, cancelBackoff k whether it fired during the backoff
wait of iteration k. -/
def retryAux (maxRetries : Nat) (op : Nat → Option GoErr)
    (cancelPre cancelBackoff : Nat → Bool) :
    Nat → Nat → Nat → Option GoErr → RetryOutcome
  | _, 0, calls, lastErr => ⟨some (.plain (aggregateMsg maxRetries lastErr)), calls⟩
  | attempt, remaining + 1, calls, _lastErr =>
      if cancelPre attempt then
        ⟨some (.plain "operation cancelled: context done"), calls⟩
      else
        match op attempt with
        | none => ⟨none, calls + 1⟩
        | some err =>
            if err.isNonRetryable then ⟨some err, calls + 1⟩
            else if remaining = 0 then
              ⟨some (.plain (aggregateMsg maxRetries (some err))), calls + 1⟩
            else if cancelBackoff attempt then
              ⟨some (.plain "operation cancelled during backoff: context done"),
               calls + 1⟩
            else retryAux maxRetries op cancelPre cancelBackoff
              (attempt + 1) remaining (calls + 1) (some err)

/-- ExponentialBackoff.RetryWithBackoff. -/
def retryWithBackoff (maxRetries : Nat) (op : Nat → Option GoErr)
    (cancelPre cancelBackoff : Nat → Bool) : RetryOutcome :=
  retryAux maxRetries op cancelPre cancelBackoff 0 maxRetries 0 none

/-- Key lemma for the retry loop: starting at any attempt index, if the
next k invocations fail retryably and invocation attempt + k succeeds,
with k invocations of slack left and no cancellation, the loop returns
success having made exactly k + 1 further calls. -/
theorem retryAux_succeeds (maxRetries : Nat) (op : Nat → Option GoErr)
    (cancelPre cancelBackoff : Nat → Bool)
    (hnc1 : ∀ i, cancelPre i = false) (hnc2 : ∀ i, cancelBackoff i = false) :
    ∀ k attempt remaining calls lastErr, k < remaining →
    (∀ i < k, ∃ e, op (attempt + i) = some e ∧ e.isNonRetryable = false) →
    op (attempt + k) = none →
    retryAux maxRetries op cancelPre cancelBackoff attempt remaining calls lastErr =
      ⟨none, calls + k + 1⟩ := by
  intro k
  induction k with
  | zero =>
      intro attempt remaining calls lastErr hrem _ hsucc
      obtain ⟨r, rfl⟩ : ∃ r, remaining = r + 1 := ⟨remaining - 1, by omega⟩
      rw [Nat.add_zero] at hsucc
      simp [retryAux, hnc1, hsucc]
  | succ k ih =>
      intro attempt remaining calls lastErr hrem hfail hsucc
      obtain ⟨r, rfl⟩ : ∃ r, remaining = r + 1 := ⟨remaining - 1, by omega⟩
      obtain ⟨e, he, hre⟩ := hfail 0 (by omega)
      rw [Nat.add_zero] at he
      have hr : r ≠ 0 := by omega
      simp only [retryAux, hnc1, Bool.false_eq_true, if_false, he, hre,
        if_neg hr, hnc2]
      rw [ih (attempt + 1) r (calls + 1) (some e) (by omega)
        (fun i hi => by
          have := hfail (i + 1) (by omega)
          rwa [show attempt + (i + 1) = attempt + 1 + i by omega] at this)
        (by rwa [show attempt + 1 + k = attempt + (k + 1) by omega])]
      congr 1
      omega

/-- Claim C3: if the operation fails with a retryable error on each of its
first k invocations and succeeds on invocation k + 1 (with k + 1 within
the attempt budget and the context never cancelled), RetryWithBackoff
returns nil and the operation is invoked exactly k + 1 times. -/
theorem retry_succeeds_after_k_failures (maxRetries k : Nat)
    (op : Nat → Option GoErr) (cancelPre cancelBackoff : Nat → Bool)
    (hk : k + 1 ≤ maxRetries)
    (hfail : ∀ i < k, ∃ e, op i = some e ∧ e.isNonRetryable = false)
    (hsucc : op k = none)
    (hnc1 : ∀ i, cancelPre i = false) (hnc2 : ∀ i, cancelBackoff i = false) :
    retryWithBackoff maxRetries op cancelPre cancelBackoff = ⟨none, k + 1⟩ := by
  unfold retryWithBackoff
  rw [retryAux_succeeds maxRetries op cancelPre cancelBackoff hnc1 hnc2 k 0
    maxRetries 0 none (by omega)
    (fun i hi => by simpa using hfail i hi) (by simpa using hsucc)]
  congr 1
  omega

theorem retry_succeeds_after_k_failures_witness :
    retryWithBackoff 3
      (fun i => if i < 2 then some (GoErr.wrapped "temporary outage" true) else none)
      (fun _ => false) (fun _ => false) = ⟨none, 3⟩ :=
  retry_succeeds_after_k_failures 3 2 _ _ _ (by omega)
    (fun i hi => ⟨GoErr.wrapped "temporary outage" true, by simp [hi], rfl⟩)
    (by simp) (fun _ => rfl) (fun _ => rfl)

/-- Claim C4: if the first invocation fails with an error marked
non-retryable, RetryWithBackoff stops after exactly one invocation and
returns that very error value, whose text is the wrapped original text
unchanged (GoErr.text of the wrapper is the wrapped message). -/
theorem retry_nonretryable_stops_immediately (maxRetries : Nat)
    (op : Nat → Option GoErr) (cancelPre cancelBackoff : Nat → Bool)
    (e : GoErr) (hmax : 1 ≤ maxRetries) (hop : op 0 = some e)
    (hnr : e.isNonRetryable = true) (hnc : cancelPre 0 = false) :
    retryWithBackoff maxRetries op cancelPre cancelBackoff = ⟨some e, 1⟩ ∧
    (some e).map GoErr.text = some e.text := by
  obtain ⟨r, rfl⟩ : ∃ r, maxRetries = r + 1 := ⟨maxRetries - 1, by omega⟩
  refine ⟨?_, rfl⟩
  simp [retryWithBackoff, retryAux, hnc, hop, hnr]

theorem retry_nonretryable_stops_immediately_witness :
    retryWithBackoff 5
      (fun _ => some (GoErr.wrapped "credentials missing" false))
      (fun _ => false) (fun _ => false) =
        ⟨some (GoErr.wrapped "credentials missing" false), 1⟩ ∧
    (some (GoErr.wrapped "credentials missing" false)).map GoErr.text =
      some (GoErr.wrapped "credentials missing" false).text :=
  retry_nonretryable_stops_immediately 5 _ _ _ _ (by omega) rfl rfl rfl

/-! ## Task execution pipeline (internal/core/backup/task.go, ExecuteTask)

The operation closure passed to RetryWithBackoff is modelled per
invocation: the environment of one attempt records which external calls
succeed (persisting the running status, random key generation, file
encryption, compression, the credential lookup, the provider upload,
persisting the completed status) and whether a run-time panic strikes
the body after the recover handler is installed. The closure is
classified by the first exit it takes, following the Go control flow
line by line; from the classification the status-assignment trace, the
returned error and whether a provider upload was dispatched are read
off. Statuses are the five string constants of task.go. -/

inductive Status where
  | pending | running | syncing | completed | failed
  deriving DecidableEq

/-- Configuration of a task as the pipeline reads it: the two transform
flags, whether the encryption key field is empty, and the provider name. -/
structure TaskCfg where
  encryptFlag : Bool
  compressFlag : Bool
  keyEmpty : Bool
  provider : String
  deriving DecidableEq

/-- Outcomes of the external calls made by one invocation of the
operation closure. -/
structure AttemptEnv where
  updateRunningOk : Bool
  panics : Bool
  keygenOk : Bool
  encryptOk : Bool
  compressOk : Bool
  credsOk : Bool
  uploadOk : Bool
  updateCompletedOk : Bool
  deriving DecidableEq

/-- First exit taken by one invocation of the operation closure. -/
inductive AttemptOutcome where
  | updateRunningFailed
  | panicked
  | keygenFailed
  | encryptFailed
  | compressFailed
  | credsFailed
  | uploadFailed
  | unsupportedProvider
  | updateCompletedFailed
  | succeeded
  deriving DecidableEq

/-- Classify one invocation of the operation closure by walking the Go
control flow in order: persist running; recover guard; encryption
(generating a key first when the task has none); compression; credential
lookup; the provider switch with the upload call; persist completed. -/
def classifyAttempt (cfg : TaskCfg) (e : AttemptEnv) : AttemptOutcome :=
  if !e.updateRunningOk then .updateRunningFailed
  else if e.panics then .panicked
  else if cfg.encryptFlag && cfg.keyEmpty && !e.keygenOk then .keygenFailed
  else if cfg.encryptFlag && !e.encryptOk then .encryptFailed
  else if cfg.compressFlag && !e.compressOk then .compressFailed
  else if !e.credsOk then .credsFailed
  else if cfg.provider ≠ "gdrive" ∧ cfg.provider ≠ "onedrive" then
    .unsupportedProvider
  else if !e.uploadOk then .uploadFailed
  else if !e.updateCompletedOk then .updateCompletedFailed
  else .succeeded

/-- Sequence of assignments to t.Status made by the invocation. Every
invocation first sets running; the panic handler, a compression failure,
an upload failure and an unsupported provider additionally set failed;
reaching the end of the switch sets completed. -/
def attemptTrace : AttemptOutcome → List Status
  | .updateRunningFailed => [.running]
  | .panicked => [.running, .failed]
  | .keygenFailed => [.running]
  | .encryptFailed => [.running]
  | .compressFailed => [.running, .failed]
  | .credsFailed => [.running]
  | .uploadFailed => [.running, .failed]
  | .unsupportedProvider => [.running, .failed]
  | .updateCompletedFailed => [.running, .completed]
  | .succeeded => [.running, .completed]

/-- Error returned by the invocation. A recovered panic makes the Go
closure return its zero value, which is a nil error. The retryable flags
are the literal second arguments of NewRetryableError in task.go. -/
def attemptResult : AttemptOutcome → Option GoErr
  | .updateRunningFailed => some (.wrapped "failed to update task status" true)
  | .panicked => none
  | .keygenFailed => some (.wrapped "failed to generate encryption key" false)
  | .encryptFailed => some (.wrapped "failed to encrypt file" false)
  | .compressFailed => some (.wrapped "could not compress backup task" true)
  | .credsFailed => some (.wrapped "failed to get credentials" false)
  | .uploadFailed => some (.wrapped "cannot upload backup task" true)
  | .unsupportedProvider => some (.wrapped "unsupported provider" false)
  | .updateCompletedFailed => some (.wrapped "failed to update task status" true)
  | .succeeded => none

/-- Whether the invocation dispatched the provider upload call. -/
def attemptUploaded : AttemptOutcome → Bool
  | .uploadFailed => true
  | .updateCompletedFailed => true
  | .succeeded => true
  | _ => false

/-- Whether the invocation got past the key-generation step with a key
freshly generated, making t.EncryptionKey non-empty for later attempts. -/
def attemptFilledKey (cfg : TaskCfg) (o : AttemptOutcome) : Bool :=
  cfg.encryptFlag && cfg.keyEmpty &&
    !(o == .updateRunningFailed || o == .panicked || o == .keygenFailed)

/-- Result of a whole ExecuteTask call on a non-sync task: the final
error, the concatenated status trace, the number of invocations of the
operation closure, and the number of provider uploads dispatched. -/
structure ExecOutcome where
  result : Option GoErr
  trace : List Status
  calls : Nat
  uploads : Nat
  deriving DecidableEq

/-- The retry loop of ExecuteTask specialised to the pipeline closure,
accumulating the status trace and the upload count while following
exactly the control flow of RetryWithBackoff (no-cancellation contexts:
the 2-hour context of ExecuteTask is modelled as never expiring, which
covers the executions the claims quantify over). -/
def execAux (maxRetries : Nat) (cfg : TaskCfg) (env : Nat → AttemptEnv) :
    Nat → Nat → Bool → List Status → Nat → Nat → ExecOutcome
  | _, 0, _, trace, calls, uploads =>
      ⟨some (.plain (aggregateMsg maxRetries none)), trace, calls, uploads⟩
  | attempt, remaining + 1, keyFilled, trace, calls, uploads =>
      let cfgNow : TaskCfg := { cfg with keyEmpty := cfg.keyEmpty && !keyFilled }
      let o := classifyAttempt cfgNow (env attempt)
      let trace' := trace ++ attemptTrace o
      let calls' := calls + 1
      let uploads' := uploads + (if attemptUploaded o then 1 else 0)
      let keyFilled' := keyFilled || attemptFilledKey cfgNow o
      match attemptResult o with
      | none => ⟨none, trace', calls', uploads'⟩
      | some err =>
          if err.isNonRetryable then ⟨some err, trace', calls', uploads'⟩
          else if remaining = 0 then
            ⟨some (.plain (aggregateMsg maxRetries (some err))), trace', calls',
             uploads'⟩
          else execAux maxRetries cfg env (attempt + 1) remaining keyFilled'
            trace' calls' uploads'

/-- ExecuteTask on a non-sync task: the task starts with status pending
(the seed of the trace, set by Create) and the operation runs under
RetryWithBackoff. -/
def executeTask (maxRetries : Nat) (cfg : TaskCfg) (env : Nat → AttemptEnv) :
    ExecOutcome :=
  execAux maxRetries cfg env 0 maxRetries false [Status.pending] 0 0

/-! ## Claim C2: status set and transition discipline -/

/-- Position of a status in the lifecycle order pending, running,
syncing, then the terminal statuses. -/
def Status.rank : Status → Nat
  | .pending => 0
  | .running => 1
  | .syncing => 2
  | .failed => 3
  | .completed => 4

/-- Transition discipline as the claim states it: a repeated status is
no transition, a transition moves forward in the lifecycle, and the one
allowed backward transition is failed to running on a retry restart. -/
def stepClaimB (s sNext : Status) : Bool :=
  s == sNext || s.rank < sNext.rank || (s == .failed && sNext == .running)

/-- Transition discipline the code actually obeys: additionally
completed to running, taken when persisting the completed status fails
and the retry loop restarts the attempt. -/
def stepCodeB (s sNext : Status) : Bool :=
  stepClaimB s sNext || (s == .completed && sNext == .running)

/-- Adjacent-pair check along a status trace. -/
def chainB (f : Status → Status → Bool) : List Status → Bool
  | a :: b :: rest => f a b && chainB f (b :: rest)
  | _ => true

theorem chainB_append (f : Status → Status → Bool) :
    ∀ t u, chainB f t = true → chainB f u = true →
    (∀ x y, t.getLast? = some x → u.head? = some y → f x y = true) →
    chainB f (t ++ u) = true := by
  intro t
  induction t with
  | nil =>
      intro u _ h2 _
      simpa using h2
  | cons a t ih =>
      intro u h1 h2 hj
      cases t with
      | nil =>
          cases u with
          | nil => simp [chainB]
          | cons y u' =>
              have hy : f a y = true := hj a y rfl rfl
              simpa [chainB, hy] using h2
      | cons b t' =>
          have h1' : f a b = true ∧ chainB f (b :: t') = true := by
            simpa [chainB] using h1
          have hrec := ih u h1'.2 h2 (fun x y hx hy =>
            hj x y (by rwa [List.getLast?_cons_cons]) hy)
          simpa [chainB, h1'.1] using hrec

theorem attemptTrace_chain (o : AttemptOutcome) :
    chainB stepCodeB (attemptTrace o) = true := by
  cases o <;> rfl

theorem attemptTrace_head (o : AttemptOutcome) :
    (attemptTrace o).head? = some .running := by
  cases o <;> rfl

theorem attemptTrace_getLast_ne_syncing (o : AttemptOutcome) :
    ∀ x, (attemptTrace o).getLast? = some x → x ≠ .syncing := by
  cases o <;> intro x hx <;> simp_all [attemptTrace] <;> subst hx <;> decide

theorem stepCodeB_to_running (x : Status) (hx : x ≠ .syncing) :
    stepCodeB x .running = true := by
  cases x <;> first | rfl | exact absurd rfl hx

theorem execAux_chain (maxRetries : Nat) (cfg : TaskCfg)
    (env : Nat → AttemptEnv) :
    ∀ remaining attempt keyFilled trace calls uploads,
    chainB stepCodeB trace = true →
    (∀ x, trace.getLast? = some x → x ≠ .syncing) →
    chainB stepCodeB
      (execAux maxRetries cfg env attempt remaining keyFilled trace calls
        uploads).trace = true := by
  intro remaining
  induction remaining with
  | zero =>
      intro attempt keyFilled trace calls uploads h1 _
      simpa [execAux] using h1
  | succ r ih =>
      intro attempt keyFilled trace calls uploads h1 hlast
      have hjoin : chainB stepCodeB
          (trace ++ attemptTrace (classifyAttempt
            { cfg with keyEmpty := cfg.keyEmpty && !keyFilled }
            (env attempt))) = true := by
        apply chainB_append _ _ _ h1 (attemptTrace_chain _)
        intro x y hx hy
        rw [attemptTrace_head] at hy
        cases hy
        exact stepCodeB_to_running x (hlast x hx)
      have hlast' : ∀ x,
          (trace ++ attemptTrace (classifyAttempt
            { cfg with keyEmpty := cfg.keyEmpty && !keyFilled }
            (env attempt))).getLast? = some x → x ≠ .syncing := by
        intro x hx
        rw [List.getLast?_append] at hx
        rcases ho : (attemptTrace (classifyAttempt
            { cfg with keyEmpty := cfg.keyEmpty && !keyFilled }
            (env attempt))).getLast? with _ | y
        · rw [ho] at hx
          simp only [Option.none_or] at hx
          exact hlast x hx
        · rw [ho] at hx
          simp only [Option.or_some] at hx
          cases hx
          exact attemptTrace_getLast_ne_syncing _ x ho
      simp only [execAux]
      rcases hres : attemptResult (classifyAttempt
          { cfg with keyEmpty := cfg.keyEmpty && !keyFilled } (env attempt)) with
        _ | err
      · simpa [hres] using hjoin
      · by_cases hnr : err.isNonRetryable
        · simpa [hres, hnr] using hjoin
        · by_cases hr0 : r = 0
          · simpa [hres, hnr, hr0] using hjoin
          · simpa [hres, hnr, hr0] using ih (attempt + 1) _ _ _ _ hjoin hlast'

/-- Claim C2 (amended): along every execution of a non-sync task the
status only takes the five lifecycle values, and every change of status
moves forward in the lifecycle except failed to running on a retry
restart and additionally completed to running, which the code performs
when persisting the completed status fails and the attempt is retried. -/
theorem executeTask_status_discipline (maxRetries : Nat) (cfg : TaskCfg)
    (env : Nat → AttemptEnv) :
    (∀ s ∈ (executeTask maxRetries cfg env).trace,
      s = .pending ∨ s = .running ∨ s = .syncing ∨ s = .completed ∨
        s = .failed) ∧
    chainB stepCodeB (executeTask maxRetries cfg env).trace = true := by
  constructor
  · intro s _
    cases s <;> simp
  · unfold executeTask
    apply execAux_chain
    · rfl
    · intro x hx
      simp at hx
      subst hx
      decide

/-- Configuration used in the counterexample to claim C2 as stated: a
plain Google Drive upload task. -/
def c2Cfg : TaskCfg := ⟨false, false, false, "gdrive"⟩

/-- Environment for the C2 counterexample: on the first invocation every
step succeeds except persisting the completed status; the second
invocation fully succeeds. -/
def c2Env : Nat → AttemptEnv := fun i =>
  if i = 0 then ⟨true, false, true, true, true, true, true, false⟩
  else ⟨true, false, true, true, true, true, true, true⟩

/-- Counterexample to claim C2 as stated: when the upload succeeds but
persisting the completed status fails retryably, the next attempt moves
the status from completed back to running, a backward transition other
than failed to running. -/
theorem executeTask_completed_to_running :
    (executeTask 5 c2Cfg c2Env).trace =
      [.pending, .running, .completed, .running, .completed] ∧
    chainB stepClaimB (executeTask 5 c2Cfg c2Env).trace = false := by decide

/-- Helper for claim C5: when compression fails on every invocation
(whatever the key-empty state), the retry loop spends its whole budget,
never dispatching an upload, and ends with the aggregate error built
from the retryable compression error. -/
theorem execAux_compress_always (maxRetries : Nat) (cfg : TaskCfg)
    (env : Nat → AttemptEnv)
    (hc : ∀ i keyE, classifyAttempt { cfg with keyEmpty := keyE } (env i) =
      .compressFailed) :
    ∀ r attempt keyF trace calls uploads, 1 ≤ r →
    execAux maxRetries cfg env attempt r keyF trace calls uploads =
      ⟨some (.plain (aggregateMsg maxRetries
          (some (.wrapped "could not compress backup task" true)))),
        trace ++ (List.replicate r [Status.running, Status.failed]).flatten,
        calls + r, uploads⟩ := by
  intro r
  induction r with
  | zero => omega
  | succ s ih =>
      intro attempt keyF trace calls uploads _
      by_cases hs : s = 0
      · subst hs
        simp [execAux, hc, attemptResult, GoErr.isNonRetryable, attemptTrace,
          attemptUploaded]
      · have hs1 : 1 ≤ s := by omega
        simp only [execAux, hc, attemptResult, GoErr.isNonRetryable,
          Bool.not_true, Bool.false_eq_true, if_false, if_neg hs]
        rw [ih (attempt + 1) _ _ _ _ hs1]
        simp [attemptTrace, attemptUploaded, List.replicate_succ]
        omega

/-- Claim C5 (amended): an attempt whose encryption step fails (either
generating the random key or encrypting the file) aborts the pipeline
before any upload is dispatched and its error is non-retryable, so the
whole execution makes exactly one invocation; an attempt whose
compression step fails also aborts before any upload, but its error is
marked retryable, so when compression keeps failing the loop makes all
maxRetries invocations instead of stopping after one. -/
theorem transform_failure_aborts_before_upload (cfg : TaskCfg)
    (env : Nat → AttemptEnv) (m : Nat) (hm : 1 ≤ m) :
    ((classifyAttempt cfg (env 0) = .keygenFailed ∨
        classifyAttempt cfg (env 0) = .encryptFailed) →
      (executeTask m cfg env).calls = 1 ∧
      (executeTask m cfg env).uploads = 0 ∧
      ∃ err, (executeTask m cfg env).result = some err ∧
        err.isNonRetryable = true) ∧
    ((∀ i keyE, classifyAttempt { cfg with keyEmpty := keyE } (env i) =
        .compressFailed) →
      (executeTask m cfg env).calls = m ∧
      (executeTask m cfg env).uploads = 0 ∧
      (executeTask m cfg env).result = some (.plain (aggregateMsg m
        (some (.wrapped "could not compress backup task" true))))) := by
  obtain ⟨r, rfl⟩ : ∃ r, m = r + 1 := ⟨m - 1, by omega⟩
  constructor
  · intro hclass
    have hcfg : ({ cfg with keyEmpty := cfg.keyEmpty && !false } : TaskCfg) =
        cfg := by
      simp
    rcases hclass with hclass | hclass
    · simp [executeTask, execAux, hcfg, hclass, attemptResult,
        GoErr.isNonRetryable, attemptUploaded]
    · simp [executeTask, execAux, hcfg, hclass, attemptResult,
        GoErr.isNonRetryable, attemptUploaded]
  · intro hc
    rw [show executeTask (r + 1) cfg env =
        execAux (r + 1) cfg env 0 (r + 1) false [Status.pending] 0 0 from rfl,
      execAux_compress_always (r + 1) cfg env hc (r + 1) 0 false
        [Status.pending] 0 0 (by omega)]
    simp

/-- Configuration for the counterexample to claim C5 as stated: a
compressed (not encrypted) Google Drive task. -/
def c5Cfg : TaskCfg := ⟨false, true, false, "gdrive"⟩

/-- Environment for the C5 counterexample: compression fails on every
invocation, everything else succeeds. -/
def c5Env : Nat → AttemptEnv := fun _ =>
  ⟨true, false, true, true, false, true, true, true⟩

/-- Counterexample to claim C5 as stated: a compression failure is
classified retryable (task.go passes true to NewRetryableError), so with
two attempts allowed, the failing operation is invoked twice rather than
stopping after one non-retryable failure; the abort-before-upload part
does hold (zero uploads dispatched). -/
theorem compress_failure_is_retried :
    classifyAttempt c5Cfg (c5Env 0) = .compressFailed ∧
    attemptResult .compressFailed =
      some (.wrapped "could not compress backup task" true) ∧
    GoErr.isNonRetryable (.wrapped "could not compress backup task" true) =
      false ∧
    (executeTask 2 c5Cfg c5Env).calls = 2 ∧
    (executeTask 2 c5Cfg c5Env).uploads = 0 := by decide

/-- Configuration for the C5 witness: an encrypted task with a
user-supplied key. -/
def c5wCfg : TaskCfg := ⟨true, false, false, "gdrive"⟩

/-- Environment for the C5 witness: the file encryption step fails. -/
def c5wEnv : Nat → AttemptEnv := fun _ =>
  ⟨true, false, true, false, true, true, true, true⟩

theorem transform_failure_aborts_before_upload_witness :
    (executeTask 5 c5wCfg c5wEnv).calls = 1 ∧
    (executeTask 5 c5wCfg c5wEnv).uploads = 0 ∧
    ∃ err, (executeTask 5 c5wCfg c5wEnv).result = some err ∧
      err.isNonRetryable = true :=
  (transform_failure_aborts_before_upload c5wCfg c5wEnv 5 (by omega)).1
    (Or.inr (by decide))

/-! ## Task creation and the persisted task list
(internal/core/backup/task.go Create, ListTasks;
internal/core/backup/task_storage.go LoadTasks, SaveTasks) -/

/-- The persisted fields of a BackupTask record. -/
structure TaskRec where
  id : String
  sourcePath : String
  provider : String
  destinationPath : String
  schedule : String
  recurring : Bool
  compress : Bool
  encryptField : Bool
  encryptionKey : String
  createdAt : Nat
  status : Status
  isSingle : Bool
  isSync : Bool
  errorMessage : String
  deriving DecidableEq

/-- State of backup_tasks.json: absent, holding a parsed task list, or
unreadable (an IO error other than not-exist, or JSON that does not
unmarshal). -/
inductive TaskFile where
  | absent
  | contents (tasks : List TaskRec)
  | corrupt
  deriving DecidableEq

/-- LoadTasks: an absent (or empty) file is an empty list, not an
error. -/
def loadTasks : TaskFile → Except String (List TaskRec)
  | .absent => Except.ok []
  | .contents ts => Except.ok ts
  | .corrupt => Except.error "failed to read tasks"

/-- SaveTasks rewrites the whole file. -/
def saveTasks (ts : List TaskRec) : TaskFile := .contents ts

/-- Operations performed against the task file, recorded in order. -/
inductive StoreOp where
  | load
  | save
  deriving DecidableEq


/-- The record Create builds before validating: the spec with the
freshly generated identifier, the creation time and the pending status
assigned (these assignments precede the validation check in task.go). -/
def createdRec (spec : TaskRec) (newId : String) (now : Nat) : TaskRec :=
  { spec with id := newId, createdAt := now, status := .pending }

/-- BackupTask.Create: assign identifier, creation time and pending
status; validate; on valid input load the task list, append the record
and save. Returns the result, the resulting file state and the store
operations performed in order. -/
def createTask (spec : TaskRec) (newId : String) (now : Nat)
    (file : TaskFile) : Except String String × TaskFile × List StoreOp :=
  let t := createdRec spec newId now
  if spec.sourcePath = "" ∨ spec.provider = "" then
    (Except.error "cannot create a backup task without a Sourcepath or Provider",
     file, [])
  else
    match loadTasks file with
    | .error e => (Except.error e, file, [.load])
    | .ok ts =>
        (Except.ok newId, saveTasks (ts ++ [t]), [.load, .save])

/-- ListTasks is LoadTasks. -/
def listTasks (file : TaskFile) : Except String (List TaskRec) :=
  loadTasks file

/-- Claim C6: creating a task from a spec with non-empty source path and
provider succeeds, assigns the freshly generated identifier and the
pending status, appends the record to the persisted list, and a
subsequent ListTasks returns the list extended by that record, whose
fields match the spec; when the generated identifier does not collide
with a persisted one (uuid freshness) it identifies the new record
uniquely. A spec with an empty source path or provider fails with the
validation error. -/
theorem createTask_spec (spec : TaskRec) (newId : String) (now : Nat)
    (ts : List TaskRec) :
    ((spec.sourcePath ≠ "" ∧ spec.provider ≠ "") →
      createTask spec newId now (.contents ts) =
        (Except.ok newId, .contents (ts ++ [createdRec spec newId now]),
         [.load, .save]) ∧
      listTasks (createTask spec newId now (.contents ts)).2.1 =
        Except.ok (ts ++ [createdRec spec newId now]) ∧
      (createdRec spec newId now).id = newId ∧
      (createdRec spec newId now).status = .pending ∧
      (createdRec spec newId now).sourcePath = spec.sourcePath ∧
      (createdRec spec newId now).provider = spec.provider ∧
      (createdRec spec newId now).destinationPath = spec.destinationPath ∧
      (createdRec spec newId now).schedule = spec.schedule ∧
      (createdRec spec newId now).compress = spec.compress ∧
      (createdRec spec newId now).encryptField = spec.encryptField ∧
      ((∀ t ∈ ts, t.id ≠ newId) →
        (ts ++ [createdRec spec newId now]).filter (fun t => t.id == newId) =
          [createdRec spec newId now])) ∧
    ((spec.sourcePath = "" ∨ spec.provider = "") →
      ∃ e, (createTask spec newId now (.contents ts)).1 = Except.error e) := by
  constructor
  · intro ⟨h1, h2⟩
    have hcond : ¬ (spec.sourcePath = "" ∨ spec.provider = "") := by
      simp [h1, h2]
    refine ⟨?_, ?_, rfl, rfl, rfl, rfl, rfl, rfl, rfl, rfl, ?_⟩
    · simp [createTask, hcond, loadTasks, saveTasks]
    · simp [createTask, hcond, loadTasks, saveTasks, listTasks]
    · intro hfresh
      rw [List.filter_append]
      have hl : ts.filter (fun t => t.id == newId) = [] := by
        rw [List.filter_eq_nil_iff]
        intro t ht
        simpa using hfresh t ht
      have hr : ([createdRec spec newId now] : List TaskRec).filter
            (fun t => t.id == newId) = [createdRec spec newId now] := by
        simp [List.filter, createdRec]
      rw [hl, hr, List.nil_append]
  · intro hbad
    simp [createTask, hbad]

/-- A concrete valid spec for the C6 witness. -/
def c6Spec : TaskRec :=
  ⟨"", "/tmp/a.txt", "gdrive", "/backups", "", false, false, false, "", 0,
   .pending, false, false, ""⟩

theorem createTask_spec_witness :
    createTask c6Spec "id-1" 7 (.contents []) =
      (Except.ok "id-1", .contents [createdRec c6Spec "id-1" 7],
       [.load, .save]) ∧
    listTasks (createTask c6Spec "id-1" 7 (.contents [])).2.1 =
      Except.ok [createdRec c6Spec "id-1" 7] := by
  have h := (createTask_spec c6Spec "id-1" 7 []).1
    (by constructor <;> simp [c6Spec])
  exact ⟨h.1, by simpa using h.2.1⟩

/-- Claim C10: on a spec with an empty source path or provider, Create
returns the validation error before touching the persisted task list: no
load, no save, and the file (whatever its state, even corrupt) is
unchanged. -/
theorem createTask_validation_atomic (spec : TaskRec) (newId : String)
    (now : Nat) (file : TaskFile)
    (hbad : spec.sourcePath = "" ∨ spec.provider = "") :
    createTask spec newId now file =
      (Except.error
        "cannot create a backup task without a Sourcepath or Provider",
       file, []) := by
  simp [createTask, hbad]

theorem createTask_validation_atomic_witness :
    createTask { c6Spec with sourcePath := "" } "id-2" 9 .corrupt =
      (Except.error
        "cannot create a backup task without a Sourcepath or Provider",
       .corrupt, []) :=
  createTask_validation_atomic _ "id-2" 9 .corrupt (Or.inl rfl)

/-! ## Folder Sync Engine (internal/core/sync/sync.go)

The file system seen by one event-handling step is a snapshot: stat
gives the current metadata of a path (none when stat errors),
hashOf gives the sha256 content hash calculateFileHash would compute
(none when opening or reading errors). Times are naturals; the Go
comparison ModTime().After(x) is strict greater-than. -/

/-- Metadata returned by os.Stat. -/
structure FileMeta where
  modTime : Nat
  size : Nat
  isDir : Bool
  deriving DecidableEq

/-- Snapshot of the watched file system during one step. -/
structure FileSys where
  stat : String → Option FileMeta
  hashOf : String → Option String

/-- A stored fingerprint (sync.FileInfo). -/
structure FileInfo where
  path : String
  hash : String
  lastModified : Nat
  size : Nat
  deriving DecidableEq

/-- FolderState.HasFileChanged: a path with no stored fingerprint is
changed; otherwise stat, and only when the modification time strictly
advanced recompute the hash and compare it with the stored one. -/
def hasFileChanged (fsys : FileSys) (files : String → Option FileInfo)
    (path : String) : Except String Bool :=
  match files path with
  | none => Except.ok true
  | some oldInfo =>
      match fsys.stat path with
      | none => Except.error "stat failed"
      | some meta =>
          if oldInfo.lastModified < meta.modTime then
            match fsys.hashOf path with
            | none => Except.error "hash failed"
            | some h => Except.ok (h != oldInfo.hash)
          else Except.ok false

/-- FolderState.UpdateFile: stat, skip directories, hash, store the new
fingerprint; on any error the map is left unchanged (the error is
returned in Go but the caller in watchEvents ignores it). -/
def updateFile (fsys : FileSys) (files : String → Option FileInfo)
    (path : String) : String → Option FileInfo :=
  match fsys.stat path with
  | none => files
  | some meta =>
      if meta.isDir then files
      else
        match fsys.hashOf path with
        | none => files
        | some h => fun p =>
            if p = path then some ⟨path, h, meta.modTime, meta.size⟩
            else files p

/-- One write/create notification handled by FolderWatcher.watchEvents:
stat (skip on error), register directories with the watcher instead of
enqueueing, otherwise ask HasFileChanged and, only when it answers true,
enqueue the path once and update the store. Returns the new store and
the list of paths enqueued onto the upload channel by this event. -/
def processEvent (fsys : FileSys) (files : String → Option FileInfo)
    (name : String) : (String → Option FileInfo) × List String :=
  match fsys.stat name with
  | none => (files, [])
  | some meta =>
      if meta.isDir then (files, [])
      else
        match hasFileChanged fsys files name with
        | .error _ => (files, [])
        | .ok false => (files, [])
        | .ok true => (updateFile fsys files name, [name])

/-- Claim C7 (amended): for a watched file whose fingerprint is stored,
a modification-time advance with an unchanged content hash enqueues
nothing, and a modification-time advance with a changed content hash
enqueues exactly that path once; a file with no stored fingerprint is
always treated as changed, whatever the file system says. The amendment:
the changed-content branch fires only when the modification time also
advanced past the stored one, because HasFileChanged recomputes the hash
only behind the ModTime comparison. -/
theorem sync_change_detection (fsys : FileSys)
    (files : String → Option FileInfo) (path : String) (old : FileInfo)
    (meta : FileMeta) (h : String)
    (hstored : files path = some old) (hstat : fsys.stat path = some meta)
    (hdir : meta.isDir = false) (hnewer : old.lastModified < meta.modTime)
    (hhash : fsys.hashOf path = some h) :
    (h = old.hash → processEvent fsys files path = (files, [])) ∧
    (h ≠ old.hash →
      (processEvent fsys files path).2 = [path] ∧
      (processEvent fsys files path).1 path =
        some ⟨path, h, meta.modTime, meta.size⟩) ∧
    (∀ fsys2 files2 p, files2 p = none →
      hasFileChanged fsys2 files2 p = Except.ok true) := by
  have hchanged : hasFileChanged fsys files path = Except.ok (h != old.hash) := by
    simp [hasFileChanged, hstored, hstat, hnewer, hhash]
  refine ⟨?_, ?_, ?_⟩
  · intro hsame
    have : hasFileChanged fsys files path = Except.ok false := by
      rw [hchanged, show (h != old.hash) = false by simp [hsame]]
    simp [processEvent, hstat, hdir, this]
  · intro hdiff
    have hch : hasFileChanged fsys files path = Except.ok true := by
      rw [hchanged, show (h != old.hash) = true by simp [hdiff]]
    constructor
    · simp [processEvent, hstat, hdir, hch]
    · simp [processEvent, hstat, hdir, hch, updateFile, hhash]
  · intro fsys2 files2 p hp
    simp [hasFileChanged, hp]

/-- File system for the C7 scenarios: one file at path a whose current
content hashes to h2 while its modification time stayed at 5. -/
def c7Fsys : FileSys :=
  ⟨fun p => if p = "a" then some ⟨5, 10, false⟩ else none,
   fun p => if p = "a" then some "h2" else none⟩

/-- Store for the C7 scenarios: path a is fingerprinted with hash h1
taken at modification time 5. -/
def c7Files : String → Option FileInfo :=
  fun p => if p = "a" then some ⟨"a", "h1", 5, 10⟩ else none

/-- Counterexample to claim C7 as stated: the stored fingerprint of path
a has hash h1, the current content hashes to h2 (the content changed),
yet no upload is enqueued, because the modification time did not advance
and HasFileChanged never recomputes the hash. -/
theorem changed_content_same_modtime_not_enqueued :
    c7Files "a" = some ⟨"a", "h1", 5, 10⟩ ∧
    c7Fsys.hashOf "a" = some "h2" ∧
    "h2" ≠ "h1" ∧
    processEvent c7Fsys c7Files "a" = (c7Files, []) := by
  refine ⟨rfl, rfl, by decide, ?_⟩
  simp [processEvent, c7Fsys, c7Files, hasFileChanged]

/-- File system for the C7 witness: the file at path a was touched
(modification time 9, past the stored 5). -/
def c7FsysTouched : FileSys :=
  ⟨fun p => if p = "a" then some ⟨9, 10, false⟩ else none,
   fun p => if p = "a" then some "h2" else none⟩

theorem sync_change_detection_witness :
    processEvent c7FsysTouched c7Files "a" ≠ (c7Files, ["a"]) ∨
    ((processEvent c7FsysTouched c7Files "a").2 = ["a"] ∧
      (processEvent c7FsysTouched c7Files "a").1 "a" =
        some ⟨"a", "h2", 9, 10⟩) := by
  refine Or.inr ?_
  exact ((sync_change_detection c7FsysTouched c7Files "a" ⟨"a", "h1", 5, 10⟩
    ⟨9, 10, false⟩ "h2" rfl rfl rfl (by decide) rfl).2.1 (by decide))

/-! ## StopSync (internal/core/backup/task.go, lines 333-339)

Go channel semantics: close on an already-closed channel is a run-time
panic ("close of closed channel"). StopSync closes t.stopSync without
clearing or replacing it, so the channel state must be threaded through
consecutive calls. -/

/-- State of a Go channel as far as close is concerned. -/
inductive ChanState where
  | opened
  | closedCh
  deriving DecidableEq

/-- The Go built-in close: panics when the channel is already closed. -/
def closeChan : ChanState → Except String ChanState
  | .opened => Except.ok .closedCh
  | .closedCh => Except.error "close of closed channel"

/-- The fields of a BackupTask that StopSync reads and writes: the sync
flag, the stop channel (none models a nil channel, before startSync ran)
and the status. -/
structure SyncTaskState where
  isSync : Bool
  stopChan : Option ChanState
  status : Status
  deriving DecidableEq

/-- BackupTask.StopSync: when the task is a sync task with a non-nil
stop channel, close the channel and set the status to completed;
otherwise do nothing. A panic from close propagates as an error. -/
def stopSync (t : SyncTaskState) : Except String SyncTaskState :=
  if t.isSync then
    match t.stopChan with
    | none => Except.ok t
    | some ch =>
        match closeChan ch with
        | .error e => Except.error e
        | .ok ch2 =>
            Except.ok { t with stopChan := some ch2, status := .completed }
  else Except.ok t

/-- Claim C8 evaluated at its failing input: on a running continuous-sync
task the first StopSync call succeeds (channel closed, status
completed), but the second call reaches close on the already-closed
channel and panics, so StopSync is not idempotent and does fault. The
spec (section 4.1) documents StopSync as idempotent, and the design
notes (section 9) themselves call for a one-time broadcast rather than a
repeatable close, so the double close in the code is the slip. -/
theorem stopSync_second_call_panics :
    stopSync ⟨true, some .opened, .syncing⟩ =
      Except.ok ⟨true, some .closedCh, .completed⟩ ∧
    stopSync ⟨true, some .closedCh, .completed⟩ =
      Except.error "close of closed channel" := by
  constructor <;> rfl
